import Mathlib

/-!
A verification development for the cmon complaint-monitor repository.

The storage layer (package `storage`, file `storage.go` of the refactored
layout) is embedded shallowly: Go maps over `string` keys become association
lists, the CSV file becomes a list of rows (each row a list of fields — the
byte-level CSV escaping is abstracted away as an injective row encoding),
and fallible file I/O becomes an explicit outcome parameter describing which
of the operation's I/O steps failed.  Go map iteration order is modelled as
insertion order (a deterministic refinement; none of the proved properties
depend on the order of iteration).
-/

namespace Cmon

/-- One CSV row: a list of string fields. -/
abbrev Row := List String

/-- Association list standing for a Go `map[string]string`. -/
abbrev SMap := List (String × String)

/-- Go map read `m[k]` for a `map[string]string`: zero value `""` if absent. -/
def mapGet : SMap → String → String
  | [], _ => ""
  | (k, v) :: rest, key => if k = key then v else mapGet rest key

/-- Go comma-ok map read: whether the key is present. -/
def mapHasKey : SMap → String → Bool
  | [], _ => false
  | (k, _) :: rest, key => k = key || mapHasKey rest key

/-- Go map write `m[k] = v`: replace the binding in place or append. -/
def mapSet : SMap → String → String → SMap
  | [], key, val => [(key, val)]
  | (k, v) :: rest, key, val =>
    if k = key then (key, val) :: rest else (k, v) :: mapSet rest key val

/-- Go `delete(m, k)`. -/
def mapDel : SMap → String → SMap
  | [], _ => []
  | (k, v) :: rest, key =>
    if k = key then mapDel rest key else (k, v) :: mapDel rest key

/-- Membership test for the `seen` set (a Go `map[string]bool`). -/
def setHas (l : List String) (k : String) : Bool := decide (k ∈ l)

/-- Go `m[k] = true` on a `map[string]bool`. -/
def setAdd (l : List String) (k : String) : List String :=
  if k ∈ l then l else l ++ [k]

/-- Go `delete(m, k)` on a `map[string]bool`. -/
def setDel (l : List String) (k : String) : List String :=
  l.filter (fun x => x ≠ k)

/-- `storage.Record`: one complaint record (storage.go). -/
structure Record where
  ComplaintID : String
  MessageID : String
  APIID : String
  ConsumerName : String
deriving Repr, DecidableEq

/-- `storage.Storage`: the in-memory indexes (the mutex is irrelevant to the
sequential model). -/
structure Storage where
  seen : List String
  messageIDs : SMap
  apiIDs : SMap
  consumerNames : SMap
deriving Repr, DecidableEq

/-- The maps a fresh `storage.New()` starts from. -/
def emptyStorage : Storage := ⟨[], [], [], []⟩

/-- `Storage.IsNew`: `!s.seen[complaintID]`. -/
def Storage.IsNew (s : Storage) (complaintID : String) : Bool :=
  ! setHas s.seen complaintID

/-- `Storage.Exists`: `s.seen[complaintID]`. -/
def Storage.Exists (s : Storage) (complaintID : String) : Bool :=
  setHas s.seen complaintID

/-- `Storage.GetMessageID`. -/
def Storage.GetMessageID (s : Storage) (complaintID : String) : String :=
  mapGet s.messageIDs complaintID

/-- `Storage.GetAPIID`. -/
def Storage.GetAPIID (s : Storage) (complaintID : String) : String :=
  mapGet s.apiIDs complaintID

/-- `Storage.GetConsumerName`. -/
def Storage.GetConsumerName (s : Storage) (complaintID : String) : String :=
  mapGet s.consumerNames complaintID

/-- `Storage.GetAllSeenComplaints`: snapshot of all keys of `seen`. -/
def Storage.GetAllSeenComplaints (s : Storage) : List String :=
  s.seen

/-- The row `SaveMultiple` writes for a record:
`[]string{r.ComplaintID, r.MessageID, r.APIID, r.ConsumerName}`. -/
def recordRow (r : Record) : Row :=
  [r.ComplaintID, r.MessageID, r.APIID, r.ConsumerName]

/-- The index-update loop at the end of `SaveMultiple` ("update in-memory
maps ONLY after successful write"). -/
def indexRecords (s : Storage) (records : List Record) : Storage :=
  records.foldl
    (fun s r =>
      { seen := setAdd s.seen r.ComplaintID
        messageIDs := mapSet s.messageIDs r.ComplaintID r.MessageID
        apiIDs := mapSet s.apiIDs r.ComplaintID r.APIID
        consumerNames := mapSet s.consumerNames r.ComplaintID r.ConsumerName })
    s

/-- Outcome of the file I/O performed by `SaveMultiple`.
`openFail` — `os.OpenFile` failed (file untouched);
`ioFail flushed` — `writer.Write`, `writer.Error()` or `bufferedWriter.Flush()`
failed after `flushed` buffered rows had already reached the file (the
unflushed remainder of the 64KB buffer is dropped on `file.Close()`);
`success` — every row written and both flushes succeeded. -/
inductive SaveOutcome where
  | openFail
  | ioFail (flushed : List Row)
  | success
deriving Repr, DecidableEq

/-- `Storage.SaveMultiple`: append all rows, then (only on success) index the
records.  Result: the returned `error` (`none` = Go `nil`), the storage after
the call, and the file after the call. -/
def SaveMultiple (s : Storage) (file : List Row) (records : List Record) :
    SaveOutcome → Option String × Storage × List Row
  | .openFail => (some "open failed", s, file)
  | .ioFail flushed => (some "write failed", s, file ++ flushed)
  | .success => (none, indexRecords s records, file ++ records.map recordRow)

/-- The rows `rewriteFile` writes from the in-memory maps: one row per `seen`
key, each optional field defaulted to `""` when absent. -/
def rowsOfStorage (s : Storage) : List Row :=
  s.seen.map
    (fun id => [id, mapGet s.messageIDs id, mapGet s.apiIDs id, mapGet s.consumerNames id])

/-- Outcome of the file I/O performed by `rewriteFile`.
`openFail` — `os.OpenFile` with `O_TRUNC` failed (file untouched);
`ioFail written` — truncation happened but a later write or flush failed,
leaving `written` on disk; `success` — full rewrite. -/
inductive RewriteOutcome where
  | openFail
  | ioFail (written : List Row)
  | success
deriving Repr, DecidableEq

/-- `Storage.rewriteFile`: rewrite the whole file from the in-memory maps. -/
def rewriteFile (s : Storage) (file : List Row) :
    RewriteOutcome → Option String × List Row
  | .openFail => (some "open failed", file)
  | .ioFail written => (some "write failed", written)
  | .success => (none, rowsOfStorage s)

/-- The four `delete` statements shared by `Remove` and `RemoveIfExists`. -/
def removeFromMaps (s : Storage) (complaintID : String) : Storage :=
  { seen := setDel s.seen complaintID
    messageIDs := mapDel s.messageIDs complaintID
    apiIDs := mapDel s.apiIDs complaintID
    consumerNames := mapDel s.consumerNames complaintID }

/-- `Storage.Remove`: delete from the maps, then rewrite the file. -/
def Remove (s : Storage) (file : List Row) (complaintID : String)
    (o : RewriteOutcome) : Option String × Storage × List Row :=
  let s2 := removeFromMaps s complaintID
  let rw := rewriteFile s2 file o
  (rw.1, s2, rw.2)

/-- `Storage.RemoveIfExists`: atomic check-and-remove.  Returns
`((removed, error), storage, file)`. -/
def RemoveIfExists (s : Storage) (file : List Row) (complaintID : String)
    (o : RewriteOutcome) : (Bool × Option String) × Storage × List Row :=
  if ! setHas s.seen complaintID then ((false, none), s, file)
  else
    let s2 := removeFromMaps s complaintID
    let rw := rewriteFile s2 file o
    ((true, rw.1), s2, rw.2)

/-- The header heuristic of `loadFromFile`:
`record[0] == "ComplaintID" || record[0] == "complaint_id"`. -/
def isHeaderRow (r : Row) : Bool :=
  match r with
  | f :: _ => f = "ComplaintID" || f = "complaint_id"
  | [] => false

/-- Go `encoding/csv` `Reader.ReadAll` with the default `FieldsPerRecord = 0`:
every record must have the same number of fields as the first record;
on the first offending record `ReadAll` returns `nil, err` and the caller
sees no rows at all. -/
def readAllCSV (rows : List Row) : Option (List Row) :=
  match rows with
  | [] => some []
  | r :: rest =>
    if rest.all (fun x => x.length = r.length) then some (r :: rest) else none

/-- The body of the row-loading loop of `loadFromFile` (rows with at least a
complaint ID populate `seen` and whichever optional fields are present). -/
def loadRow (s : Storage) (r : Row) : Storage :=
  match r with
  | [] => s
  | complaintID :: rest =>
    { seen := setAdd s.seen complaintID
      messageIDs :=
        match rest with
        | m :: _ => mapSet s.messageIDs complaintID m
        | [] => s.messageIDs
      apiIDs :=
        match rest with
        | _ :: a :: _ => mapSet s.apiIDs complaintID a
        | _ => s.apiIDs
      consumerNames :=
        match rest with
        | _ :: _ :: n :: _ => mapSet s.consumerNames complaintID n
        | _ => s.consumerNames }

/-- The record loop of `loadFromFile`: skip a leading header row, then load
every row in order. -/
def loadParsedRows (records : List Row) : Storage :=
  let body :=
    match records with
    | r0 :: rest => if isHeaderRow r0 then rest else r0 :: rest
    | [] => []
  body.foldl loadRow emptyStorage

/-- `Storage.loadFromFile` (as invoked from `storage.New()` on fresh maps):
parse the whole file with `ReadAll`; on a parse error the function logs and
returns, leaving the storage empty; otherwise load row by row. -/
def loadFromFile (fileRows : List Row) : Storage :=
  match readAllCSV fileRows with
  | none => emptyStorage
  | some records => loadParsedRows records

end Cmon

/-!
Result classification of `api.ResolveComplaint` (package `api`) and of the
legacy root-level `ResolveComplaintOnWebsite`.  Go strings are indexed by
byte; the prefix `"ERROR:"` is ASCII, so modelling the string as its
character list keeps the indices aligned on the checked region.  A Go slice
`s[low:high]` panics when `high > len(s)` (or `low > high`); a panic is
modelled as `none`.
-/

namespace Cmon

/-- The post-call classification of `api.ResolveComplaint`:
`if len(responseText) >= 6 && responseText[:6] == "ERROR:" {
   return fmt.Errorf("API call failed: %s", responseText[7:]) }`.
`none` models the run-time panic of the slice `responseText[7:]` when
`len(responseText) < 7`; `some (.error m)` the returned error; `some (.ok ())`
the `nil` return. -/
def classifyResponse (responseText : String) : Option (Except String Unit) :=
  let l := responseText.toList
  if l.length ≥ 6 ∧ l.take 6 = "ERROR:".toList then
    if l.length < 7 then none
    else some (.error (String.mk (l.drop 7)))
  else some (.ok ())

/-- The same classification in the legacy `ResolveComplaintOnWebsite`:
`if responseText != "" && responseText[:6] == "ERROR:"`.  Here already the
slice `responseText[:6]` panics on any non-empty response shorter than six
bytes. -/
def classifyResponseLegacy (responseText : String) : Option (Except String Unit) :=
  let l := responseText.toList
  if l ≠ [] then
    if l.length < 6 then none
    else if l.take 6 = "ERROR:".toList then
      if l.length < 7 then none
      else some (.error (String.mk (l.drop 7)))
    else some (.ok ())
  else some (.ok ())

end Cmon

/-!
The captcha solver and the login procedure (internal/auth/login.go).
`strings.Fields` splits on runs of white space; `strconv.Atoi` accepts an
optional sign followed by one or more decimal digits (integer overflow is
ignored: captcha operands are small).  The browser-driven steps of `Login`
are oracles: `navResult` is the outcome of the navigate/wait/extract batch
(`none` = error, `some text` = the extracted captcha text) and `submitOk`
the outcome of the fill-and-submit batch.
-/

namespace Cmon

/-- White space as recognized by `strings.Fields` (`unicode.IsSpace`),
restricted to the ASCII range. -/
def isSpaceChar (c : Char) : Bool :=
  c = ' ' || c = '\t' || c = '\n' || c = '\r' || c = '\x0b' || c = '\x0c'

/-- Splitting helper for `strings.Fields`: `acc` holds the (reversed) current
field. -/
def fieldsAux : List Char → List Char → List (List Char)
  | [], [] => []
  | [], acc => [acc.reverse]
  | c :: cs, acc =>
    if isSpaceChar c then
      match acc with
      | [] => fieldsAux cs []
      | _ => acc.reverse :: fieldsAux cs []
    else fieldsAux cs (c :: acc)

/-- `strings.Fields`. -/
def fields (s : String) : List String :=
  (fieldsAux s.toList []).map String.mk

/-- `strconv.Atoi`. -/
def atoi (s : String) : Option Int :=
  let chars := s.toList
  let signed : Bool × List Char :=
    match chars with
    | '-' :: rest => (true, rest)
    | '+' :: rest => (false, rest)
    | rest => (false, rest)
  if signed.2 = [] then none
  else if signed.2.all Char.isDigit then
    let n : Nat := signed.2.foldl (fun acc d => acc * 10 + (d.toNat - '0'.toNat)) 0
    some (if signed.1 then -(n : Int) else (n : Int))
  else none

/-- `auth.solveCaptcha`: split on white space, require at least three fields,
parse fields 0 and 2 as integers, and return the textual form of their SUM —
the operator token at index 1 is never examined. -/
def solveCaptcha (text : String) : Except String String :=
  match fields text with
  | a :: _op :: b :: _ =>
    match atoi a, atoi b with
    | some x, some y => .ok (toString (x + y))
    | _, _ => .error ("failed to parse captcha numbers: " ++ text)
  | _ => .error ("invalid captcha format: " ++ text)

/-- Result of `auth.Login`: `nil` or a `LoginFailedError` with its message. -/
inductive LoginResult where
  | ok
  | loginFailed (msg : String)
deriving Repr, DecidableEq

/-- Oracle outcomes of the two browser-driven steps of `auth.Login`. -/
structure LoginEnv where
  navResult : Option String
  submitOk : Bool

/-- `auth.Login`: navigate and extract the captcha, solve it, then submit.
Every failing step yields a `LoginFailedError`. -/
def Login (env : LoginEnv) : LoginResult :=
  match env.navResult with
  | none => .loginFailed "failed to load login page"
  | some captchaText =>
    match solveCaptcha captchaText with
    | .error _ => .loginFailed "captcha solution failed"
    | .ok _ => if env.submitOk then .ok else .loginFailed "failed to submit login form"

end Cmon

/-!
The scrape-and-filter pipeline of `Fetcher.scrapePage` and
`Fetcher.processComplaintsConcurrently` (internal/complaint/fetcher.go).
The page extraction is an input (`links`); the per-job work of
`Worker.processComplaint` (internal/complaint/worker.go) is an oracle
`worker : Link → WorkerOutcome` — the worker always stamps the result with
the submitted complaint's number, so only the message id, the cached name
and the error flag are outcome data.  Results are collected in submission
order (channel order is racy in the source; every property proved below is
insensitive to the collection order).
-/

namespace Cmon

/-- `complaint.Link`: one scraped table row. -/
structure Link where
  ComplaintNumber : String
  APIID : String
deriving Repr, DecidableEq

/-- The outcome fields of one worker job
(`ProcessResult` minus the echoed `ComplaintID`). -/
structure WorkerOutcome where
  MessageID : String
  ConsumerName : String
  hasError : Bool
deriving Repr, DecidableEq

/-- The dedup-and-filter loop of `scrapePage`: walk the links, collect every
complaint number into `allIDsOnPage`, skip same-page duplicates via
`seenOnPage`, and collect the rest that pass `storage.IsNew` into
`newComplaints`.  Returns `(allIDsOnPage, newComplaints)`. -/
def scrapeFilter (s : Storage) : List Link → List String → List String × List Link
  | [], _ => ([], [])
  | c :: rest, seenOnPage =>
    if c.ComplaintNumber ∈ seenOnPage then
      let p := scrapeFilter s rest seenOnPage
      (c.ComplaintNumber :: p.1, p.2)
    else
      let p := scrapeFilter s rest (c.ComplaintNumber :: seenOnPage)
      if s.IsNew c.ComplaintNumber then (c.ComplaintNumber :: p.1, c :: p.2)
      else (c.ComplaintNumber :: p.1, p.2)

/-- The `apiIDMap` built at the top of `processComplaintsConcurrently`. -/
def buildApiIDMap (complaints : List Link) : SMap :=
  complaints.foldl (fun m c => mapSet m c.ComplaintNumber c.APIID) []

/-- The result-collection loop: drop error results, keep results with a
non-empty message id, and attach the API id from `apiIDMap`. -/
def collectResults (apiIDMap : SMap) (worker : Link → WorkerOutcome) :
    List Link → List Record
  | [] => []
  | c :: rest =>
    let res := worker c
    if res.hasError then collectResults apiIDMap worker rest
    else if res.MessageID ≠ "" then
      ⟨c.ComplaintNumber, res.MessageID, mapGet apiIDMap c.ComplaintNumber,
        res.ConsumerName⟩ :: collectResults apiIDMap worker rest
    else collectResults apiIDMap worker rest

/-- `Fetcher.processComplaintsConcurrently`: run the pool, collect, and batch
save (a save error is only logged, leaving storage and file as `SaveMultiple`
left them). -/
def processComplaintsConcurrently (s : Storage) (file : List Row)
    (worker : Link → WorkerOutcome) (o : SaveOutcome) (complaints : List Link) :
    Storage × List Row :=
  let recordsToSave := collectResults (buildApiIDMap complaints) worker complaints
  if recordsToSave.isEmpty then (s, file)
  else
    let sv := SaveMultiple s file recordsToSave o
    (sv.2.1, sv.2.2)

/-- `Fetcher.scrapePage`: filter the page, submit the new complaints to the
pool if any, and return
`(storage, file, allIDsOnPage, submitted jobs)` — the last component is the
list handed to `pool.Submit`, empty when nothing was new. -/
def scrapePage (s : Storage) (file : List Row) (worker : Link → WorkerOutcome)
    (o : SaveOutcome) (links : List Link) :
    Storage × List Row × List String × List Link :=
  let p := scrapeFilter s links []
  if p.2.isEmpty then (s, file, p.1, p.2)
  else
    let pr := processComplaintsConcurrently s file worker o p.2
    (pr.1, pr.2, p.1, p.2)

end Cmon

/-!
The chat-interaction state machine (internal/telegram/client.go) and the
resolved-elsewhere sweep (`markResolvedComplaints` in main.go).  Outbound
chat calls become an effect trace; each fallible outbound call additionally
has an oracle for its result.  Strings are manipulated as character lists
(Go indexes bytes, but every index the source computes is the length of a
literal it just searched for, so the character-level view extracts the same
substrings).
-/

namespace Cmon

/-- First-occurrence search: the suffix following the first occurrence of
`pat`, as in `strings.Index(s, pat)` followed by `s[idx+len(pat):]`. -/
def afterSub (pat : List Char) : List Char → Option (List Char)
  | [] => if pat.isEmpty then some [] else none
  | c :: rest =>
    if pat.isPrefixOf (c :: rest) then some ((c :: rest).drop pat.length)
    else afterSub pat rest

/-- The characters strictly before the first occurrence of `ch`
(`none` when `ch` does not occur), as in `strings.Index(s, "\n")`. -/
def beforeChar (ch : Char) : List Char → Option (List Char)
  | [] => none
  | c :: rest => if c = ch then some [] else (beforeChar ch rest).map (c :: ·)

/-- The consumer-name extraction shared by `handleCallbackQuery` and
`handleMessage`: the text between the first `"👤 "` and the following
newline, defaulting to `"Unknown"`. -/
def extractConsumerName (originalText : String) : String :=
  match afterSub "👤 ".toList originalText.toList with
  | none => "Unknown"
  | some rest =>
    match beforeChar '\n' rest with
    | none => "Unknown"
    | some name => String.mk name

/-- Split at the first occurrence of `sep`:
`strings.SplitN(s, sep, 2)` yields two parts exactly when this is `some`. -/
def splitFirst (sep : Char) : List Char → Option (List Char × List Char)
  | [] => none
  | c :: rest =>
    if c = sep then some ([], rest)
    else (splitFirst sep rest).map (fun p => (c :: p.1, p.2))

/-- `telegram.PendingResolution`. -/
structure PendingResolution where
  ComplaintNumber : String
  MessageID : String
  OriginalText : String
  PromptMessageID : Int
deriving Repr, DecidableEq

/-- The `pendingResolutions` map (`map[int64]PendingResolution`). -/
abbrev PendMap := List (Int × PendingResolution)

/-- Comma-ok read of the pending map. -/
def pendLookup : PendMap → Int → Option PendingResolution
  | [], _ => none
  | (k, v) :: rest, key => if k = key then some v else pendLookup rest key

/-- Write to the pending map. -/
def pendSet : PendMap → Int → PendingResolution → PendMap
  | [], key, val => [(key, val)]
  | (k, v) :: rest, key, val =>
    if k = key then (key, val) :: rest else (k, v) :: pendSet rest key val

/-- `delete` on the pending map. -/
def pendDel : PendMap → Int → PendMap
  | [], _ => []
  | (k, v) :: rest, key =>
    if k = key then pendDel rest key else (k, v) :: pendDel rest key

/-- One outbound interaction, in emission order. -/
inductive TgEffect where
  | deleteMessage (messageId : Int)
  | sendMessage (text : String)
  | editMessage (messageId : String) (text : String)
  | answerCallback (queryId : String) (text : String)
  | resolveCall (apiId : String) (remark : String)
deriving Repr, DecidableEq

/-- The RESOLVED template shared by `handleMessage` and
`markResolvedComplaints`. -/
def resolvedMessage (complaintNumber consumerName timeStr : String) : String :=
  "✅ <b>RESOLVED</b>\n\nComplaint #" ++ complaintNumber ++ "\n👤 " ++
    consumerName ++ "\n🕐 " ++ timeStr

/-- Reply when the complaint is no longer in storage. -/
def alreadyResolvedMsg (n : String) : String :=
  "ℹ️ Complaint <b>" ++ n ++ "</b> was already resolved."

/-- Reply when no API id is stored for the complaint. -/
def noApiIdMsg (n : String) : String :=
  "❌ Error: Cannot resolve complaint " ++ n ++ " (API ID not found)."

/-- Error reply after a failed resolution call. -/
def resolveFailedMsg (n errText : String) : String :=
  "❌ Failed to mark complaint " ++ n ++ " as resolved on website: " ++ errText ++
    "\nPlease try again or contact support."

/-- Reconciliation message after a failed edit that followed a successful
portal call. -/
def editFailedMsg (n : String) : String :=
  "❌ Error updating Telegram message for complaint " ++ n ++
    ". The complaint was marked as resolved on the website though."

/-- The remark prompt sent from `handleCallbackQuery`. -/
def promptMsg (n consumerName : String) : String :=
  "📝 Remarks for complaint <b>" ++ n ++ "</b>\n👤 " ++ consumerName ++ ":"

/-- An incoming callback query (id, sender, attached message text, data). -/
structure CbQuery where
  id : String
  fromId : Int
  messageText : Option String
  data : String
deriving Repr, DecidableEq

/-- Oracle for `handleCallbackQuery`: result of sending the prompt —
`none` = `doRequest` failed, `some pid` = sent with message id `pid`
(`0` when the response carried none). -/
structure CbEnv where
  promptSendResult : Option Int

/-- The store-pending / send-prompt tail of `Client.handleCallbackQuery`:
insert the pending entry, send the force-reply prompt, and on success record
the prompt's message id in the entry. -/
def handleCallbackInsert (env : CbEnv) (pend : PendMap) (q : CbQuery)
    (s : Storage) (complaintNumber messageID originalText : String) :
    PendMap × Storage × List TgEffect :=
  let pend2 := pendSet pend q.fromId ⟨complaintNumber, messageID, originalText, 0⟩
  let consumerName := extractConsumerName originalText
  let sendEff := TgEffect.sendMessage (promptMsg complaintNumber consumerName)
  match env.promptSendResult with
  | none => (pend2, s, [sendEff, .answerCallback q.id "Error sending prompt"])
  | some promptMsgID =>
    let pend3 :=
      match pendLookup pend2 q.fromId with
      | some pending => pendSet pend2 q.fromId { pending with PromptMessageID := promptMsgID }
      | none => pend2
    (pend3, s, [sendEff, .answerCallback q.id "Please send your remarks"])

/-- `Client.handleCallbackQuery`.  Returns the pending map, the (read-only)
storage, and the effect trace. -/
def handleCallbackQuery (env : CbEnv) (pend : PendMap) (q : CbQuery)
    (s : Storage) : PendMap × Storage × List TgEffect :=
  match splitFirst ':' q.data.toList with
  | none => (pend, s, [.answerCallback q.id "Invalid action"])
  | some parts =>
    if String.mk parts.1 ≠ "resolve" then
      (pend, s, [.answerCallback q.id "Invalid action"])
    else
      let complaintNumber := String.mk parts.2
      let messageID := s.GetMessageID complaintNumber
      if messageID = "" then
        (pend, s, [.answerCallback q.id "Error: Message not found"])
      else
        let originalText := q.messageText.getD ""
        match pendLookup pend q.fromId with
        | some pending =>
          if pending.ComplaintNumber = complaintNumber then
            -- toggle-cancel
            let eff :=
              (if pending.PromptMessageID > 0 then
                [TgEffect.deleteMessage pending.PromptMessageID] else []) ++
              [.answerCallback q.id "Resolution cancelled"]
            (pendDel pend q.fromId, s, eff)
          else
            handleCallbackInsert env pend q s complaintNumber messageID originalText
        | none =>
          handleCallbackInsert env pend q s complaintNumber messageID originalText

/-- An incoming text message (`From` may be absent). -/
structure InMessage where
  messageId : Int
  fromId : Option Int
  text : String
deriving Repr, DecidableEq

/-- Oracles for `handleMessage`: result of `api.ResolveComplaint` (debug mode
short-circuits it to success), its error text, and the result of the
`editMessageText` request. -/
structure MsgEnv where
  resolveOk : Bool
  resolveErrText : String
  editOk : Bool
  now : String

/-- `strings.TrimSpace` on the ASCII range: strip leading and trailing
white space. -/
def trimChars (l : List Char) : List Char :=
  ((l.dropWhile isSpaceChar).reverse.dropWhile isSpaceChar).reverse

/-- ASCII lower-casing of one character. -/
def toLowerChar (c : Char) : Char :=
  if 'A' ≤ c ∧ c ≤ 'Z' then Char.ofNat (c.toNat + 32) else c

/-- `strings.EqualFold(strings.TrimSpace(text), "cancel")`, on the ASCII
range (the compared literal is ASCII). -/
def isCancelText (text : String) : Bool :=
  (trimChars text.toList).map toLowerChar = "cancel".toList

/-- `Client.handleMessage`: pop the pending entry, delete the prompt, and run
the resolution flow.  Returns the pending map, storage, file, and effect
trace. -/
def handleMessage (env : MsgEnv) (pend : PendMap) (msg : InMessage)
    (s : Storage) (file : List Row) (ripOutcome : RewriteOutcome) :
    PendMap × Storage × List Row × List TgEffect :=
  match msg.fromId with
  | none => (pend, s, file, [])
  | some fromId =>
    if msg.text = "" then (pend, s, file, [])
    else
      match pendLookup pend fromId with
      | none => (pend, s, file, [])
      | some pending =>
        let pend2 := pendDel pend fromId
        let eff0 : List TgEffect :=
          if pending.PromptMessageID > 0 then [.deleteMessage pending.PromptMessageID]
          else []
        if isCancelText msg.text then
          (pend2, s, file, eff0 ++ [.sendMessage "❌ Resolution cancelled."])
        else if s.Exists pending.ComplaintNumber = false then
          (pend2, s, file, eff0 ++ [.sendMessage (alreadyResolvedMsg pending.ComplaintNumber)])
        else
          let apiID := s.GetAPIID pending.ComplaintNumber
          if apiID = "" then
            (pend2, s, file, eff0 ++ [.sendMessage (noApiIdMsg pending.ComplaintNumber)])
          else
            let eff1 := eff0 ++ [.resolveCall apiID msg.text]
            if env.resolveOk = false then
              (pend2, s, file,
                eff1 ++ [.sendMessage (resolveFailedMsg pending.ComplaintNumber env.resolveErrText)])
            else
              let consumerName := extractConsumerName pending.OriginalText
              let rmsg := resolvedMessage pending.ComplaintNumber consumerName env.now
              let eff2 := eff1 ++ [.editMessage pending.MessageID rmsg]
              if env.editOk = false then
                (pend2, s, file, eff2 ++ [.sendMessage (editFailedMsg pending.ComplaintNumber)])
              else
                let rip := RemoveIfExists s file pending.ComplaintNumber ripOutcome
                (pend2, rip.2.1, rip.2.2, eff2)

/-- The loop body of `markResolvedComplaints` (main.go): for every snapshot
id absent from the active set, look up the message id in the CURRENT
storage, and only when it is non-empty and the chat client is configured,
edit the chat message; only on edit success remove the entry. -/
def markGo (tgConfigured : Bool) (editOk : String → Bool)
    (rw : String → RewriteOutcome) (now : String) (activeIDs : List String) :
    List String → Storage × List Row → List TgEffect → Storage × List Row × List TgEffect
  | [], st, eff => (st.1, st.2, eff)
  | id :: rest, st, eff =>
    if id ∈ activeIDs then markGo tgConfigured editOk rw now activeIDs rest st eff
    else
      let messageID := st.1.GetMessageID id
      if messageID ≠ "" ∧ tgConfigured then
        let consumerName0 := st.1.GetConsumerName id
        let consumerName := if consumerName0 = "" then "Unknown" else consumerName0
        let rmsg := resolvedMessage id consumerName now
        let eff2 := eff ++ [.editMessage messageID rmsg]
        if editOk id then
          let rm := Remove st.1 st.2 id (rw id)
          markGo tgConfigured editOk rw now activeIDs rest (rm.2.1, rm.2.2) eff2
        else markGo tgConfigured editOk rw now activeIDs rest st eff2
      else markGo tgConfigured editOk rw now activeIDs rest st eff

/-- `markResolvedComplaints`: sweep the snapshot of all seen complaints
against the observed active ids. -/
def markResolvedComplaints (tgConfigured : Bool) (editOk : String → Bool)
    (rw : String → RewriteOutcome) (now : String) (s : Storage)
    (file : List Row) (activeIDs : List String) :
    Storage × List Row × List TgEffect :=
  markGo tgConfigured editOk rw now activeIDs s.GetAllSeenComplaints (s, file) []

end Cmon

/-!
Sequences of `Remove` / `RemoveIfExists` calls for a fixed display id, used
to settle the removal-algebra claim.
-/

namespace Cmon

/-- One removal call with the outcome of its file rewrite. -/
inductive RemoveCall where
  | rem (o : RewriteOutcome)
  | rip (o : RewriteOutcome)
deriving Repr, DecidableEq

/-- The value a removal call returned: `Remove` returns an error only,
`RemoveIfExists` returns `(removed, error)`. -/
inductive CallRet where
  | remRet (err : Option String)
  | ripRet (removed : Bool) (err : Option String)
deriving Repr, DecidableEq

/-- Run a sequence of removal calls for the fixed id, collecting the returns
in call order. -/
def runRemoveCalls (id : String) :
    List RemoveCall → Storage × List Row → (Storage × List Row) × List CallRet
  | [], st => (st, [])
  | .rem o :: rest, st =>
    let r := Remove st.1 st.2 id o
    let out := runRemoveCalls id rest (r.2.1, r.2.2)
    (out.1, .remRet r.1 :: out.2)
  | .rip o :: rest, st =>
    let r := RemoveIfExists st.1 st.2 id o
    let out := runRemoveCalls id rest (r.2.1, r.2.2)
    (out.1, .ripRet r.1.1 r.1.2 :: out.2)

/-- Number of `(true, nil)` returns of `RemoveIfExists` in a trace. -/
def countTrueNil (trace : List CallRet) : Nat :=
  (trace.filter (fun r => r = .ripRet true none)).length

/-- A row keyed (first field) by the given complaint id exists in the file. -/
def fileHasRow (file : List Row) (c : String) : Prop :=
  ∃ row ∈ file, row.head? = some c

/-- Two storages agree on everything observable about one complaint id. -/
def frameEq (s s2 : Storage) (id : String) : Prop :=
  s2.Exists id = s.Exists id ∧
  s2.GetMessageID id = s.GetMessageID id ∧
  s2.GetAPIID id = s.GetAPIID id ∧
  s2.GetConsumerName id = s.GetConsumerName id

end Cmon

/-! Helper lemmas about the map and set primitives. -/

namespace Cmon

theorem string_toList_inj {a b : String} (h : a.toList = b.toList) : a = b := by
  cases a; cases b
  exact congrArg String.mk (by simpa [String.toList] using h)

theorem mem_setAdd {l : List String} {k c : String} :
    c ∈ setAdd l k ↔ c ∈ l ∨ c = k := by
  unfold setAdd
  by_cases hk : k ∈ l
  · simp only [if_pos hk]
    constructor
    · exact Or.inl
    · rintro (h | rfl) <;> assumption
  · simp [if_neg hk]

theorem mem_setDel {l : List String} {k c : String} :
    c ∈ setDel l k ↔ c ∈ l ∧ c ≠ k := by
  simp [setDel, List.mem_filter]

theorem mapGet_mapSet_self (m : SMap) (k v : String) :
    mapGet (mapSet m k v) k = v := by
  induction m with
  | nil => simp [mapSet, mapGet]
  | cons p rest ih =>
    obtain ⟨a, b⟩ := p
    by_cases h : a = k
    · simp [mapSet, h, mapGet]
    · simp [mapSet, h, mapGet, ih]

theorem mapGet_mapSet_other (m : SMap) (k v c : String) (h : c ≠ k) :
    mapGet (mapSet m k v) c = mapGet m c := by
  induction m with
  | nil => simp [mapSet, mapGet, Ne.symm h]
  | cons p rest ih =>
    obtain ⟨a, b⟩ := p
    by_cases ha : a = k
    · simp [mapSet, mapGet, ha, Ne.symm h]
    · simp [mapSet, mapGet, ha, ih]

theorem mapGet_mapDel (m : SMap) (k c : String) :
    mapGet (mapDel m k) c = if c = k then "" else mapGet m c := by
  induction m with
  | nil => simp [mapDel, mapGet]
  | cons p rest ih =>
    obtain ⟨a, b⟩ := p
    by_cases ha : a = k
    · by_cases hc : c = k
      · subst hc
        simp [mapDel, mapGet, ha, ih]
      · simp [mapDel, mapGet, ha, hc, ih, Ne.symm hc]
    · by_cases hc : c = k
      · subst hc
        simp [mapDel, mapGet, ha, ih]
      · simp [mapDel, mapGet, ha, hc, ih]

theorem setDel_setDel (l : List String) (k : String) :
    setDel (setDel l k) k = setDel l k := by
  simp [setDel, List.filter_filter]

theorem mapDel_mapDel (m : SMap) (k : String) :
    mapDel (mapDel m k) k = mapDel m k := by
  induction m with
  | nil => rfl
  | cons p rest ih =>
    obtain ⟨a, b⟩ := p
    by_cases ha : a = k <;> simp [mapDel, ha, ih]

theorem isNew_false_iff (s : Storage) (c : String) :
    s.IsNew c = false ↔ c ∈ s.seen := by
  simp [Storage.IsNew, setHas]

theorem isNew_true_iff (s : Storage) (c : String) :
    s.IsNew c = true ↔ c ∉ s.seen := by
  simp [Storage.IsNew, setHas]

theorem exists_true_iff (s : Storage) (c : String) :
    s.Exists c = true ↔ c ∈ s.seen := by
  simp [Storage.Exists, setHas]

theorem take6_error_iff (t : String) :
    (t.toList.length ≥ 6 ∧ t.toList.take 6 = "ERROR:".toList) ↔
      "ERROR:".toList <+: t.toList := by
  constructor
  · rintro ⟨hlen, htake⟩
    exact htake ▸ List.take_prefix 6 t.toList
  · intro h
    have hl := h.length_le
    refine ⟨by simpa using hl, ?_⟩
    have := List.prefix_iff_eq_take.mp h
    simpa using this.symm

theorem indexRecords_seen_mem (rs : List Record) (s : Storage) (c : String) :
    c ∈ (indexRecords s rs).seen ↔ c ∈ s.seen ∨ ∃ r ∈ rs, r.ComplaintID = c := by
  induction rs generalizing s with
  | nil => simp [indexRecords]
  | cons r rest ih =>
    simp only [indexRecords, List.foldl_cons] at ih ⊢
    rw [ih]
    simp only [mem_setAdd, List.mem_cons]
    constructor
    · rintro ((h | h) | ⟨r2, h2, h3⟩)
      · exact Or.inl h
      · exact Or.inr ⟨r, Or.inl rfl, h.symm⟩
      · exact Or.inr ⟨r2, Or.inr h2, h3⟩
    · rintro (h | ⟨r2, (rfl | h2), h3⟩)
      · exact Or.inl (Or.inl h)
      · exact Or.inl (Or.inr h3.symm)
      · exact Or.inr ⟨r2, h2, h3⟩

end Cmon

/-! Claim results. -/

namespace Cmon

/-- C7, counterexample: the source classification of the resolution call's
response is not total, and it does not key on the seven-byte prefix
`"ERROR: "`.  On the exact six-byte response `"ERROR:"` the slice
`responseText[7:]` in `api.ResolveComplaint` indexes out of the string's
range (modelled as `none`); in the legacy `ResolveComplaintOnWebsite` even
the short non-error response `"ok"` makes `responseText[:6]` index out of
range; and the response `"ERROR:x"`, which does not begin with `"ERROR: "`,
is still classified as a call failure. -/
theorem classifyResponse_not_total_counterexample :
    classifyResponse "ERROR:" = none ∧
    classifyResponseLegacy "ok" = none ∧
    classifyResponse "ERROR:x" = some (Except.error "") ∧
    "ERROR: ".toList.isPrefixOf "ERROR:x".toList = false := by
  exact ⟨rfl, rfl, rfl, rfl⟩

/-- C7, amended: the classification keys on the six-byte prefix `"ERROR:"`
(no trailing space).  `api.ResolveComplaint` returns a call failure exactly
for responses that strictly extend that prefix, succeeds exactly on
responses not carrying the prefix, and indexes out of the string's range
exactly on the six-byte response `"ERROR:"` itself; the legacy
`ResolveComplaintOnWebsite` additionally indexes out of range on every
non-empty response shorter than six bytes. -/
theorem classifyResponse_error_prefix :
    (∀ t : String,
      (∃ m, classifyResponse t = some (Except.error m)) ↔
        ("ERROR:".toList <+: t.toList ∧ t ≠ "ERROR:")) ∧
    (∀ t : String,
      classifyResponse t = some (Except.ok ()) ↔ ¬ "ERROR:".toList <+: t.toList) ∧
    (∀ t : String, classifyResponse t = none ↔ t = "ERROR:") ∧
    (∀ t : String,
      classifyResponseLegacy t = none ↔
        (t ≠ "" ∧ (t.toList.length < 6 ∨ t = "ERROR:"))) := by
  refine ⟨fun t => ?_, fun t => ?_, fun t => ?_, fun t => ?_⟩
  · constructor
    · rintro ⟨m, hm⟩
      unfold classifyResponse at hm
      by_cases hc : t.toList.length ≥ 6 ∧ t.toList.take 6 = "ERROR:".toList
      · rw [if_pos hc] at hm
        obtain ⟨hc1, hc2⟩ := hc
        by_cases h7 : t.toList.length < 7
        · rw [if_pos h7] at hm; cases hm
        · refine ⟨(take6_error_iff t).mp ⟨hc1, hc2⟩, fun hne => ?_⟩
          subst hne
          exact absurd (by decide) h7
      · rw [if_neg hc] at hm; cases hm
    · rintro ⟨hpre, hne⟩
      obtain ⟨hc1, hc2⟩ := (take6_error_iff t).mpr hpre
      have h7 : ¬ t.toList.length < 7 := by
        intro h7
        have htt : t.toList.take 6 = t.toList :=
          List.take_of_length_le (by omega)
        exact hne (string_toList_inj (by rw [← htt, hc2]))
      unfold classifyResponse
      rw [if_pos ⟨hc1, hc2⟩, if_neg h7]
      exact ⟨_, rfl⟩
  · unfold classifyResponse
    by_cases hc : t.toList.length ≥ 6 ∧ t.toList.take 6 = "ERROR:".toList
    · rw [if_pos hc]
      have hpre : "ERROR:".toList <+: t.toList := (take6_error_iff t).mp hc
      by_cases h7 : t.toList.length < 7
      · rw [if_pos h7]
        constructor
        · intro hm; cases hm
        · intro hnot; exact absurd hpre hnot
      · rw [if_neg h7]
        constructor
        · intro hm; cases hm
        · intro hnot; exact absurd hpre hnot
    · rw [if_neg hc]
      constructor
      · intro _ hpre
        exact hc ((take6_error_iff t).mpr hpre)
      · intro _; rfl
  · unfold classifyResponse
    by_cases hc : t.toList.length ≥ 6 ∧ t.toList.take 6 = "ERROR:".toList
    · rw [if_pos hc]
      obtain ⟨hc1, hc2⟩ := hc
      by_cases h7 : t.toList.length < 7
      · rw [if_pos h7]
        constructor
        · intro _
          have htt : t.toList.take 6 = t.toList :=
            List.take_of_length_le (by omega)
          exact string_toList_inj (by rw [← htt, hc2])
        · intro _; rfl
      · rw [if_neg h7]
        constructor
        · intro hm; cases hm
        · intro ht
          subst ht
          exact absurd (by decide) h7
    · rw [if_neg hc]
      constructor
      · intro hm; cases hm
      · intro ht
        subst ht
        exact absurd (by decide) hc
  · unfold classifyResponseLegacy
    by_cases h0 : t.toList = []
    · rw [if_neg (fun hn => hn h0)]
      have ht : t = "" := string_toList_inj (by rw [h0]; rfl)
      constructor
      · intro hm; cases hm
      · rintro ⟨htne, _⟩; exact absurd ht htne
    · rw [if_pos h0]
      have htne : t ≠ "" := fun hh => h0 (by rw [hh]; rfl)
      by_cases h6 : t.toList.length < 6
      · rw [if_pos h6]
        constructor
        · intro _; exact ⟨htne, Or.inl h6⟩
        · intro _; rfl
      · rw [if_neg h6]
        by_cases htake : t.toList.take 6 = "ERROR:".toList
        · rw [if_pos htake]
          by_cases h7 : t.toList.length < 7
          · rw [if_pos h7]
            constructor
            · intro _
              refine ⟨htne, Or.inr ?_⟩
              have htt : t.toList.take 6 = t.toList :=
                List.take_of_length_le (by omega)
              exact string_toList_inj (by rw [← htt, htake])
            · intro _; rfl
          · rw [if_neg h7]
            constructor
            · intro hm; cases hm
            · rintro ⟨_, (hlt | rfl)⟩
              · omega
              · exact absurd (by decide) h7
        · rw [if_neg htake]
          constructor
          · intro hm; cases hm
          · rintro ⟨_, (hlt | rfl)⟩
            · omega
            · exact absurd (by decide) htake

/-- C8, counterexample: for the captcha text `"5 - 3"` the solver returns
the textual sum `"8"`, not the value `"2"` of the arithmetic expression
`5 - 3` — the operator token is never examined. -/
theorem solveCaptcha_ignores_operator :
    solveCaptcha "5 - 3" = Except.ok "8" ∧
    toString ((5 : Int) - 3) = "2" ∧ ("8" : String) ≠ "2" := by
  exact ⟨rfl, rfl, by decide⟩

/-- C8, amended: whenever the captcha text splits into at least three
white-space-separated fields whose first and third parse as integers, the
solver returns the textual form of their SUM regardless of the operator
token (so `'+'` inputs are solved correctly and `'-'`, `'*'`, `'/'` inputs
are accepted but summed); and whenever two numeric operands cannot be found
(fewer than three fields, or a non-numeric first or third field), `Login`
fails with a `LoginFailure`. -/
theorem solveCaptcha_sums_and_login_fails :
    (∀ (text a op b : String) (rest : List String) (x y : Int),
      fields text = a :: op :: b :: rest → atoi a = some x → atoi b = some y →
      solveCaptcha text = Except.ok (toString (x + y))) ∧
    (∀ (text : String) (submitOk : Bool),
      ((fields text).length < 3 ∨
        (∃ a op b rest, fields text = a :: op :: b :: rest ∧
          (atoi a = none ∨ atoi b = none))) →
      Login ⟨some text, submitOk⟩ = .loginFailed "captcha solution failed") := by
  constructor
  · intro text a op b rest x y hfields hx hy
    unfold solveCaptcha
    rw [hfields]
    simp only [hx, hy]
  · intro text submitOk h
    have herr : ∃ e, solveCaptcha text = Except.error e := by
      unfold solveCaptcha
      rcases h with hlen | ⟨a, op, b, rest, hfields, hnone⟩
      · match hf : fields text with
        | [] => exact ⟨_, rfl⟩
        | [a] => exact ⟨_, rfl⟩
        | [a, b] => exact ⟨_, rfl⟩
        | a :: op :: b :: rest =>
          rw [hf] at hlen
          simp at hlen
          omega
      · rw [hfields]
        rcases hnone with ha | hb
        · simp only [ha]
          exact ⟨_, rfl⟩
        · rcases hA : atoi a with _ | xa
          · simp only [hA]
            exact ⟨_, rfl⟩
          · simp only [hA, hb]
            exact ⟨_, rfl⟩
    obtain ⟨e, he⟩ := herr
    unfold Login
    simp [he]

/-- C8, witness: the canonical `'+'` captcha is solved to the sum, and a
captcha text with fewer than three fields makes `Login` fail with a
`LoginFailure`. -/
theorem solveCaptcha_sums_witness :
    solveCaptcha "5 + 3" = Except.ok (toString ((5 : Int) + 3)) ∧
    Login ⟨some "7 +", true⟩ = .loginFailed "captcha solution failed" := by
  constructor
  · exact solveCaptcha_sums_and_login_fails.1 "5 + 3" "5" "+" "3" [] 5 3
      (by decide) (by decide) (by decide)
  · exact solveCaptcha_sums_and_login_fails.2 "7 +" true (Or.inl (by decide))

/-- C5: claim is right, code is wrong.  `loadFromFile` parses the whole file
with `encoding/csv ReadAll`, which returns an error (and no rows) at the
first malformed row, so the load of a file whose second row has only three
fields is aborted entirely — the well-formed first and third rows are NOT
loaded, although the function's own doc comment promises "Parse errors: …
don't stop loading / Malformed rows: Skipped with warning" and the spec
requires that malformed rows never abort the load.  The same file with the
malformed row deleted loads both rows. -/
theorem loadFromFile_aborts_on_malformed_row :
    loadFromFile [["1", "m", "a", "n"], ["2", "m", "a"], ["3", "m2", "a2", "n2"]]
      = emptyStorage ∧
    (loadFromFile [["1", "m", "a", "n"], ["2", "m", "a"], ["3", "m2", "a2", "n2"]]).IsNew "1"
      = true ∧
    (loadFromFile [["1", "m", "a", "n"], ["2", "m", "a"], ["3", "m2", "a2", "n2"]]).IsNew "3"
      = true ∧
    (loadFromFile [["1", "m", "a", "n"], ["3", "m2", "a2", "n2"]]).IsNew "1" = false ∧
    (loadFromFile [["1", "m", "a", "n"], ["3", "m2", "a2", "n2"]]).IsNew "3" = false := by
  refine ⟨?_, ?_, ?_, ?_, ?_⟩ <;> decide

/-- C1: `SaveMultiple` is atomic with respect to the indexes: when it
returns an error the in-memory indexes are exactly the pre-call ones; when
it returns `nil` every record of the batch has been appended to the file
and indexed; and whichever way it returns, it preserves the write-then-index
invariant that every complaint with `IsNew = false` has a row on disk keyed
by it (indexes are updated only after a successful flush). -/
theorem saveMultiple_write_then_index (s : Storage) (file : List Row)
    (records : List Record) (o : SaveOutcome)
    (hinv : ∀ c, s.IsNew c = false → fileHasRow file c) :
    ((SaveMultiple s file records o).1 ≠ none →
      (SaveMultiple s file records o).2.1 = s) ∧
    ((SaveMultiple s file records o).1 = none →
      (SaveMultiple s file records o).2.2 = file ++ records.map recordRow ∧
      ∀ r ∈ records, (SaveMultiple s file records o).2.1.IsNew r.ComplaintID = false ∧
        recordRow r ∈ (SaveMultiple s file records o).2.2) ∧
    (∀ c, (SaveMultiple s file records o).2.1.IsNew c = false →
      fileHasRow (SaveMultiple s file records o).2.2 c) := by
  cases o with
  | openFail =>
    refine ⟨fun _ => rfl, fun h => Option.noConfusion h, fun c hc => hinv c hc⟩
  | ioFail flushed =>
    refine ⟨fun _ => rfl, fun h => Option.noConfusion h, fun c hc => ?_⟩
    obtain ⟨row, hrow, hhead⟩ := hinv c hc
    exact ⟨row, List.mem_append_left _ hrow, hhead⟩
  | success =>
    refine ⟨fun h => absurd rfl h, fun _ => ⟨rfl, fun r hr => ?_⟩, fun c hc => ?_⟩
    · constructor
      · rw [isNew_false_iff]
        exact (indexRecords_seen_mem records s r.ComplaintID).mpr
          (Or.inr ⟨r, hr, rfl⟩)
      · exact List.mem_append_right _ (List.mem_map_of_mem recordRow hr)
    · rw [isNew_false_iff] at hc
      rcases (indexRecords_seen_mem records s c).mp hc with hmem | ⟨r, hr, hcid⟩
      · obtain ⟨row, hrow, hhead⟩ := hinv c (by rw [isNew_false_iff]; exact hmem)
        exact ⟨row, List.mem_append_left _ hrow, hhead⟩
      · exact ⟨recordRow r, List.mem_append_right _ (List.mem_map_of_mem recordRow hr),
          by rw [← hcid]; rfl⟩

/-- C1, witness: a successful one-record batch from the empty state reports
no error and indexes the record. -/
theorem saveMultiple_write_then_index_witness :
    (SaveMultiple emptyStorage [] [⟨"1", "m", "p", "n"⟩] .success).1 = none ∧
    ((SaveMultiple emptyStorage [] [⟨"1", "m", "p", "n"⟩] .success).2.1).IsNew "1" = false := by
  have h := saveMultiple_write_then_index emptyStorage [] [⟨"1", "m", "p", "n"⟩] .success
    (by intro c hc; simp [Storage.IsNew, setHas, emptyStorage] at hc)
  exact ⟨rfl, ((h.2.1 rfl).2 ⟨"1", "m", "p", "n"⟩ (by decide)).1⟩

/-- C10: a button-press callback whose data is not of the form
`resolve:<displayId>`, or whose displayId has no message id recorded in the
Ledger, is only acknowledged with an error text: the pending-resolution map
and the Ledger are returned unchanged and the sole outbound effect is the
callback answer — no prompt is sent, nothing is deleted, and no pending
entry is created. -/
theorem handleCallbackQuery_rejects_invalid (env : CbEnv) (pend : PendMap)
    (q : CbQuery) (s : Storage) :
    ((splitFirst ':' q.data.toList = none ∨
      (∃ parts, splitFirst ':' q.data.toList = some parts ∧
        String.mk parts.1 ≠ "resolve")) →
      handleCallbackQuery env pend q s =
        (pend, s, [.answerCallback q.id "Invalid action"])) ∧
    (∀ parts, splitFirst ':' q.data.toList = some parts →
      String.mk parts.1 = "resolve" →
      s.GetMessageID (String.mk parts.2) = "" →
      handleCallbackQuery env pend q s =
        (pend, s, [.answerCallback q.id "Error: Message not found"])) := by
  constructor
  · rintro (hnone | ⟨parts, hsome, hne⟩)
    · unfold handleCallbackQuery
      rw [hnone]
    · unfold handleCallbackQuery
      rw [hsome]
      simp only [if_pos hne]
  · intro parts hsome hres hmsg
    unfold handleCallbackQuery
    rw [hsome]
    simp only [if_neg (not_not_intro hres), if_pos hmsg]

/-- C10, witness: the malformed data `"hello"` and the well-formed data
`"resolve:42"` with no ledger entry are both rejected with a bare
acknowledgement. -/
theorem handleCallbackQuery_rejects_invalid_witness :
    handleCallbackQuery ⟨some 1⟩ [] ⟨"q1", 7, none, "hello"⟩ emptyStorage =
      ([], emptyStorage, [.answerCallback "q1" "Invalid action"]) ∧
    handleCallbackQuery ⟨some 1⟩ [] ⟨"q2", 7, none, "resolve:42"⟩ emptyStorage =
      ([], emptyStorage, [.answerCallback "q2" "Error: Message not found"]) := by
  constructor
  · exact (handleCallbackQuery_rejects_invalid ⟨some 1⟩ [] ⟨"q1", 7, none, "hello"⟩
      emptyStorage).1 (Or.inl (by decide))
  · exact (handleCallbackQuery_rejects_invalid ⟨some 1⟩ [] ⟨"q2", 7, none, "resolve:42"⟩
      emptyStorage).2 ("resolve".toList, "42".toList) (by decide) (by decide) (by decide)

/-- C6: in the chat resolution flow, for a pending resolution whose remark
text reaches the Resolution Caller (sender known, non-empty non-cancel text,
complaint still stored, API id present): if the portal call fails an error
reply is sent and the Ledger (storage and file) is unchanged; if the portal
call succeeds the original chat message is edited to the RESOLVED template;
if that edit fails a reconciliation message is sent and the Ledger is still
unchanged; only when both succeed is `RemoveIfExists` applied. -/
theorem handleMessage_resolution_flow (env : MsgEnv) (pend : PendMap)
    (msg : InMessage) (s : Storage) (file : List Row) (o : RewriteOutcome)
    (uid : Int) (pending : PendingResolution)
    (hfrom : msg.fromId = some uid) (htext : msg.text ≠ "")
    (hpend : pendLookup pend uid = some pending)
    (hcancel : isCancelText msg.text = false)
    (hexists : s.Exists pending.ComplaintNumber = true)
    (hapi : s.GetAPIID pending.ComplaintNumber ≠ "") :
    (env.resolveOk = false →
      (handleMessage env pend msg s file o).2.1 = s ∧
      (handleMessage env pend msg s file o).2.2.1 = file ∧
      TgEffect.sendMessage (resolveFailedMsg pending.ComplaintNumber env.resolveErrText)
        ∈ (handleMessage env pend msg s file o).2.2.2) ∧
    (env.resolveOk = true →
      TgEffect.editMessage pending.MessageID
          (resolvedMessage pending.ComplaintNumber
            (extractConsumerName pending.OriginalText) env.now)
        ∈ (handleMessage env pend msg s file o).2.2.2) ∧
    (env.resolveOk = true → env.editOk = false →
      (handleMessage env pend msg s file o).2.1 = s ∧
      (handleMessage env pend msg s file o).2.2.1 = file ∧
      TgEffect.sendMessage (editFailedMsg pending.ComplaintNumber)
        ∈ (handleMessage env pend msg s file o).2.2.2) ∧
    (env.resolveOk = true → env.editOk = true →
      (handleMessage env pend msg s file o).2.1 =
        (RemoveIfExists s file pending.ComplaintNumber o).2.1 ∧
      (handleMessage env pend msg s file o).2.2.1 =
        (RemoveIfExists s file pending.ComplaintNumber o).2.2) := by
  have hex : ¬ (s.Exists pending.ComplaintNumber = false) := by
    rw [hexists]; decide
  unfold handleMessage
  rw [hfrom]
  simp only [hpend, if_neg htext, hcancel, Bool.false_eq_true, if_false, if_neg hex,
    if_neg hapi]
  refine ⟨fun hro => ?_, fun hro => ?_, fun hro hed => ?_, fun hro hed => ?_⟩
  · simp only [hro, if_pos rfl]
    refine ⟨rfl, rfl, ?_⟩
    simp
  · simp only [hro]
    have : ¬ (true = false) := by decide
    simp only [if_neg this]
    by_cases hed : env.editOk = false
    · simp only [if_pos hed]
      simp
    · simp only [if_neg hed]
      simp
  · simp only [hro, hed]
    have h1 : ¬ (true = false) := by decide
    simp only [if_neg h1, if_pos rfl]
    refine ⟨rfl, rfl, ?_⟩
    simp
  · simp only [hro, hed]
    have h1 : ¬ (true = false) := by decide
    simp only [if_neg h1]
    exact ⟨by trivial, by trivial⟩

/-- C6, witness: with a stored complaint, a failing portal call leaves the
storage untouched and emits the error reply. -/
theorem handleMessage_resolution_flow_witness :
    (handleMessage ⟨false, "E", true, "T"⟩ [(7, ⟨"42", "9", "", 0⟩)]
        ⟨1, some 7, "fixed"⟩ (indexRecords emptyStorage [⟨"42", "9", "p", "n"⟩])
        [] .success).2.1 = indexRecords emptyStorage [⟨"42", "9", "p", "n"⟩] ∧
    TgEffect.sendMessage (resolveFailedMsg "42" "E")
      ∈ (handleMessage ⟨false, "E", true, "T"⟩ [(7, ⟨"42", "9", "", 0⟩)]
          ⟨1, some 7, "fixed"⟩ (indexRecords emptyStorage [⟨"42", "9", "p", "n"⟩])
          [] .success).2.2.2 := by
  have h := handleMessage_resolution_flow ⟨false, "E", true, "T"⟩
    [(7, ⟨"42", "9", "", 0⟩)] ⟨1, some 7, "fixed"⟩
    (indexRecords emptyStorage [⟨"42", "9", "p", "n"⟩]) [] .success 7
    ⟨"42", "9", "", 0⟩ rfl (by decide) (by decide) (by decide) (by decide) (by decide)
  exact ⟨(h.1 rfl).1, (h.1 rfl).2.2⟩

end Cmon

/-! Lemmas about the removal operations, then the removal-algebra claim. -/

namespace Cmon

theorem isNew_false_setHas (s : Storage) (c : String) :
    s.IsNew c = false ↔ setHas s.seen c = true := by
  simp [Storage.IsNew]

theorem remove_isNew (s : Storage) (f : List Row) (d : String) (o : RewriteOutcome) :
    ((Remove s f d o).2.1).IsNew d = true := by
  rw [isNew_true_iff]
  simp [Remove, removeFromMaps, mem_setDel]

theorem rip_isNew (s : Storage) (f : List Row) (d : String) (o : RewriteOutcome) :
    ((RemoveIfExists s f d o).2.1).IsNew d = true := by
  unfold RemoveIfExists
  by_cases hs : setHas s.seen d = true
  · rw [if_neg (by simp [hs])]
    rw [isNew_true_iff]
    simp [removeFromMaps, mem_setDel]
  · rw [if_pos (by simp [Bool.not_eq_true] at hs ⊢; exact hs)]
    rw [isNew_true_iff]
    simpa [setHas] using hs

theorem rip_removed_eq (s : Storage) (f : List Row) (d : String) (o : RewriteOutcome) :
    (RemoveIfExists s f d o).1.1 = s.Exists d := by
  unfold RemoveIfExists Storage.Exists
  by_cases hs : setHas s.seen d = true
  · rw [if_neg (by simp [hs]), hs]
  · rw [if_pos (by simp [Bool.not_eq_true] at hs ⊢; exact hs)]
    simp [Bool.not_eq_true] at hs
    rw [hs]

theorem countTrueNil_cons (r : CallRet) (tr : List CallRet) :
    countTrueNil (r :: tr) =
      (if r = CallRet.ripRet true none then 1 else 0) + countTrueNil tr := by
  by_cases h : r = CallRet.ripRet true none <;>
    simp [countTrueNil, List.filter_cons, h, Nat.add_comm]

theorem runRemoveCalls_zero_of_isNew (d : String) (calls : List RemoveCall)
    (st : Storage × List Row) (h : st.1.IsNew d = true) :
    countTrueNil (runRemoveCalls d calls st).2 = 0 := by
  induction calls generalizing st with
  | nil => rfl
  | cons c rest ih =>
    cases c with
    | rem o =>
      show countTrueNil (_ :: (runRemoveCalls d rest _).2) = 0
      rw [countTrueNil_cons, if_neg (by intro hh; cases hh)]
      simpa using ih _ (remove_isNew st.1 st.2 d o)
    | rip o =>
      show countTrueNil (CallRet.ripRet (RemoveIfExists st.1 st.2 d o).1.1 _ ::
        (runRemoveCalls d rest _).2) = 0
      have hfalse : (RemoveIfExists st.1 st.2 d o).1.1 = false := by
        rw [rip_removed_eq]
        rw [isNew_true_iff] at h
        simpa [Storage.Exists, setHas] using h
      rw [countTrueNil_cons, if_neg (by rw [hfalse]; intro hh; cases hh)]
      simpa using ih _ (rip_isNew st.1 st.2 d o)

theorem removeFromMaps_idem (s : Storage) (d : String) :
    removeFromMaps (removeFromMaps s d) d = removeFromMaps s d := by
  simp [removeFromMaps, setDel_setDel, mapDel_mapDel]

/-- C3, counterexample: with `d1` initially present, the call sequence
`remove(d1); removeIfPresent(d1)` (all rewrites succeeding) makes
`removeIfPresent` return `(true, nil)` ZERO times, not exactly once — the
preceding `remove` already deleted the entry, so `removeIfPresent` can only
answer `(false, nil)`. -/
theorem removeIfPresent_not_exactly_once :
    (indexRecords emptyStorage [⟨"d1", "m", "p", "n"⟩]).IsNew "d1" = false ∧
    countTrueNil (runRemoveCalls "d1" [.rem .success, .rip .success]
      (indexRecords emptyStorage [⟨"d1", "m", "p", "n"⟩],
       rowsOfStorage (indexRecords emptyStorage [⟨"d1", "m", "p", "n"⟩]))).2 = 0 := by
  exact ⟨by decide, by decide⟩

/-- C3 (amended): for a display id initially present in the Ledger, across
any sequence of `remove(d)` / `removeIfPresent(d)` calls with no intervening
`saveBatch` containing `d`: `removeIfPresent` returns `(true, nil)` AT MOST
once, and exactly once when the sequence opens with a `removeIfPresent`
whose rewrite succeeds; `removeIfPresent` always returns whether removal
occurred; after it reports removal, `isNew(d)` is true; and `remove(d)` is
idempotent — a second call returns the very same error, storage and file. -/
theorem removal_algebra (d : String) (s0 : Storage) (f0 : List Row)
    (hpresent : s0.IsNew d = false) :
    (∀ calls, countTrueNil (runRemoveCalls d calls (s0, f0)).2 ≤ 1) ∧
    (∀ rest,
      countTrueNil (runRemoveCalls d (.rip .success :: rest) (s0, f0)).2 = 1) ∧
    (∀ (s : Storage) (f : List Row) (o : RewriteOutcome),
      (RemoveIfExists s f d o).1.1 = s.Exists d) ∧
    (∀ (s : Storage) (f : List Row) (o : RewriteOutcome),
      (RemoveIfExists s f d o).1.1 = true →
        ((RemoveIfExists s f d o).2.1).IsNew d = true) ∧
    (∀ (s : Storage) (f : List Row),
      Remove (Remove s f d .success).2.1 (Remove s f d .success).2.2 d .success =
        Remove s f d .success) := by
  refine ⟨fun calls => ?_, fun rest => ?_,
    fun s f o => rip_removed_eq s f d o,
    fun s f o _ => rip_isNew s f d o,
    fun s f => ?_⟩
  · cases calls with
    | nil => exact Nat.zero_le 1
    | cons c rest =>
      cases c with
      | rem o =>
        show countTrueNil (_ :: (runRemoveCalls d rest _).2) ≤ 1
        rw [countTrueNil_cons, if_neg (by intro hh; cases hh)]
        rw [runRemoveCalls_zero_of_isNew d rest _ (remove_isNew s0 f0 d o)]
        exact Nat.zero_le 1
      | rip o =>
        show countTrueNil (_ :: (runRemoveCalls d rest _).2) ≤ 1
        rw [countTrueNil_cons]
        rw [runRemoveCalls_zero_of_isNew d rest _ (rip_isNew s0 f0 d o)]
        split <;> omega
  · have hs : setHas s0.seen d = true := (isNew_false_setHas s0 d).mp hpresent
    have hrip : RemoveIfExists s0 f0 d .success =
        ((true, none), removeFromMaps s0 d, rowsOfStorage (removeFromMaps s0 d)) := by
      unfold RemoveIfExists
      rw [if_neg (by simp [hs])]
      rfl
    show countTrueNil (CallRet.ripRet (RemoveIfExists s0 f0 d .success).1.1
      (RemoveIfExists s0 f0 d .success).1.2 :: (runRemoveCalls d rest
        ((RemoveIfExists s0 f0 d .success).2.1, (RemoveIfExists s0 f0 d .success).2.2)).2) = 1
    rw [countTrueNil_cons]
    rw [runRemoveCalls_zero_of_isNew d rest _ (by
      rw [hrip]
      rw [isNew_true_iff]
      simp [removeFromMaps, mem_setDel])]
    rw [hrip]
    simp
  · unfold Remove
    rw [removeFromMaps_idem]
    simp [rewriteFile]

/-- C3, witness: calling `removeIfPresent` twice on a present id yields
`(true, nil)` exactly once. -/
theorem removal_algebra_witness :
    countTrueNil (runRemoveCalls "d1" [.rip .success, .rip .success]
      (indexRecords emptyStorage [⟨"d1", "m", "p", "n"⟩], [])).2 = 1 := by
  exact (removal_algebra "d1" (indexRecords emptyStorage [⟨"d1", "m", "p", "n"⟩])
    [] (by decide)).2.1 [.rip .success]

end Cmon

/-! Lemmas about reloading, then the save/reload round-trip claim. -/

namespace Cmon

theorem foldl_loadRow_seen (l : List Row) (init : Storage) (c : String) :
    c ∈ (List.foldl loadRow init l).seen ↔
      c ∈ init.seen ∨ ∃ row ∈ l, row.head? = some c := by
  induction l generalizing init with
  | nil => simp
  | cons row rest ih =>
    rw [List.foldl_cons, ih]
    have hseen : (loadRow init row).seen =
        match row with
        | [] => init.seen
        | cid :: _ => setAdd init.seen cid := by
      cases row <;> rfl
    constructor
    · rintro (h | ⟨row2, hr2, hh2⟩)
      · rw [hseen] at h
        cases row with
        | nil => exact Or.inl h
        | cons cid rf =>
          rcases mem_setAdd.mp h with h | rfl
          · exact Or.inl h
          · exact Or.inr ⟨_, List.mem_cons_self _ _, rfl⟩
      · exact Or.inr ⟨row2, List.mem_cons_of_mem _ hr2, hh2⟩
    · rintro (h | ⟨row2, hr2, hh2⟩)
      · left
        rw [hseen]
        cases row with
        | nil => exact h
        | cons cid rf => exact mem_setAdd.mpr (Or.inl h)
      · rcases List.mem_cons.mp hr2 with rfl | hr2m
        · left
          rw [hseen]
          cases row2 with
          | nil => cases hh2
          | cons cid rf =>
            have hcid : cid = c := by
              have hs : some cid = some c := hh2
              injection hs
            exact mem_setAdd.mpr (Or.inr hcid.symm)
        · exact Or.inr ⟨row2, hr2m, hh2⟩

theorem loadRow_record_getters (g : Storage) (r : Record) :
    (loadRow g (recordRow r)).IsNew r.ComplaintID = false ∧
    (loadRow g (recordRow r)).GetMessageID r.ComplaintID = r.MessageID ∧
    (loadRow g (recordRow r)).GetAPIID r.ComplaintID = r.APIID ∧
    (loadRow g (recordRow r)).GetConsumerName r.ComplaintID = r.ConsumerName := by
  obtain ⟨cid, m, a, n⟩ := r
  refine ⟨?_, ?_, ?_, ?_⟩
  · rw [isNew_false_iff]
    exact mem_setAdd.mpr (Or.inr rfl)
  · exact mapGet_mapSet_self _ _ _
  · exact mapGet_mapSet_self _ _ _
  · exact mapGet_mapSet_self _ _ _

theorem readAllCSV_uniform (rows : List Row) (h : ∀ row ∈ rows, row.length = 4) :
    readAllCSV rows = some rows := by
  cases rows with
  | nil => rfl
  | cons r rest =>
    have hall : rest.all (fun x => x.length = r.length) = true := by
      rw [List.all_eq_true]
      intro x hx
      simp only [decide_eq_true_eq]
      rw [h x (List.mem_cons_of_mem _ hx), h r (List.mem_cons_self _ _)]
    simp [readAllCSV, hall]

theorem readAllCSV_eq_input (rows records : List Row)
    (h : readAllCSV rows = some records) : records = rows := by
  cases rows with
  | nil =>
    injection h with h
    exact h.symm
  | cons r rest =>
    have h2 : (if rest.all (fun x => x.length = r.length) = true
        then some (r :: rest) else (none : Option (List Row))) = some records := h
    by_cases hall : rest.all (fun x => x.length = r.length) = true
    · rw [if_pos hall] at h2
      injection h2 with h2
      exact h2.symm
    · rw [if_neg hall] at h2
      cases h2

theorem loadFromFile_of_readAll (rows records : List Row)
    (hr : readAllCSV rows = some records) :
    loadFromFile rows = loadParsedRows records := by
  unfold loadFromFile
  rw [hr]

theorem loadParsedRows_seen_sub (records : List Row) (c : String)
    (h : c ∈ (loadParsedRows records).seen) :
    ∃ row ∈ records, row.head? = some c := by
  cases records with
  | nil => simp [loadParsedRows, emptyStorage] at h
  | cons r0 rest =>
    have h2 : c ∈ (List.foldl loadRow emptyStorage
        (if isHeaderRow r0 = true then rest else r0 :: rest)).seen := h
    by_cases hh : isHeaderRow r0 = true
    · rw [if_pos hh] at h2
      rcases (foldl_loadRow_seen rest emptyStorage c).mp h2 with habs | ⟨row, hrow, hhead⟩
      · simp [emptyStorage] at habs
      · exact ⟨row, List.mem_cons_of_mem _ hrow, hhead⟩
    · rw [if_neg hh] at h2
      rcases (foldl_loadRow_seen (r0 :: rest) emptyStorage c).mp h2 with habs | ⟨row, hrow, hhead⟩
      · simp [emptyStorage] at habs
      · exact ⟨row, hrow, hhead⟩

theorem rowsOfStorage_head (s : Storage) (row : Row) (h : row ∈ rowsOfStorage s) :
    ∃ id ∈ s.seen, row.head? = some id := by
  unfold rowsOfStorage at h
  obtain ⟨id, hid, rfl⟩ := List.mem_map.mp h
  exact ⟨id, hid, rfl⟩

/-- C4, counterexample: the round-trip law fails for a record whose
ComplaintID collides with a known header name: saving
`{ComplaintID := "ComplaintID", …}` into an empty ledger file succeeds, but
on reload the single row is skipped as a header row, so `isNew` is `true`
rather than `false`. -/
theorem save_reload_header_collision :
    (SaveMultiple emptyStorage [] [⟨"ComplaintID", "7", "9", "N"⟩] .success).1 = none ∧
    (loadFromFile
      (SaveMultiple emptyStorage [] [⟨"ComplaintID", "7", "9", "N"⟩] .success).2.2).IsNew
      "ComplaintID" = true := by
  exact ⟨rfl, by decide⟩

/-- C4 (amended): for every record `r` and every ledger file of uniform
four-field rows, provided the appended row does not become a leading header
row (the file is non-empty, or `r.ComplaintID` is none of the header names
`"ComplaintID"` / `"complaint_id"`), `saveBatch([r])` followed by a reload
yields `isNew(r.displayId) = false` and returns the message id, portal id
and cached name verbatim; and `saveBatch([r]); remove(r.displayId)` followed
by a reload yields `isNew(r.displayId) = true` with no header side
condition. -/
theorem saveBatch_reload_roundtrip (s : Storage) (file : List Row) (r : Record)
    (h4 : ∀ row ∈ file, row.length = 4)
    (hnothdr : file ≠ [] ∨
      (r.ComplaintID ≠ "ComplaintID" ∧ r.ComplaintID ≠ "complaint_id")) :
    ((loadFromFile (SaveMultiple s file [r] .success).2.2).IsNew r.ComplaintID = false ∧
     (loadFromFile (SaveMultiple s file [r] .success).2.2).GetMessageID r.ComplaintID
        = r.MessageID ∧
     (loadFromFile (SaveMultiple s file [r] .success).2.2).GetAPIID r.ComplaintID
        = r.APIID ∧
     (loadFromFile (SaveMultiple s file [r] .success).2.2).GetConsumerName r.ComplaintID
        = r.ConsumerName) ∧
    (loadFromFile (Remove (SaveMultiple s file [r] .success).2.1
        (SaveMultiple s file [r] .success).2.2 r.ComplaintID .success).2.2).IsNew
      r.ComplaintID = true := by
  have hfile2 : (SaveMultiple s file [r] .success).2.2 = file ++ [recordRow r] := rfl
  constructor
  · have hrow4 : (recordRow r).length = 4 := by
      obtain ⟨cid, m, a, n⟩ := r
      rfl
    have h42 : ∀ row ∈ file ++ [recordRow r], row.length = 4 := by
      intro row hrow
      rcases List.mem_append.mp hrow with h | h
      · exact h4 row h
      · rw [List.mem_singleton.mp h]
        exact hrow4
    have hread := readAllCSV_uniform _ h42
    have hload := loadFromFile_of_readAll _ _ hread
    have hbody : ∃ l, loadParsedRows (file ++ [recordRow r]) =
        List.foldl loadRow emptyStorage (l ++ [recordRow r]) := by
      cases file with
      | nil =>
        have hh : isHeaderRow (recordRow r) = false := by
          rcases hnothdr with hne | ⟨h1, h2⟩
          · exact absurd rfl hne
          · obtain ⟨cid, m, a, n⟩ := r
            simp only [recordRow] at h1 h2 ⊢
            simp [isHeaderRow, h1, h2]
        refine ⟨[], ?_⟩
        have hred : loadParsedRows ([] ++ [recordRow r]) =
            List.foldl loadRow emptyStorage
              (if isHeaderRow (recordRow r) = true then [] else [recordRow r]) := rfl
        rw [hred, hh]
        simp
      | cons f0 ftl =>
        have hred : loadParsedRows ((f0 :: ftl) ++ [recordRow r]) =
            List.foldl loadRow emptyStorage
              (if isHeaderRow f0 = true then ftl ++ [recordRow r]
               else f0 :: (ftl ++ [recordRow r])) := rfl
        by_cases hh : isHeaderRow f0 = true
        · refine ⟨ftl, ?_⟩
          rw [hred, if_pos hh]
        · refine ⟨f0 :: ftl, ?_⟩
          rw [hred, if_neg hh]
          rfl
    obtain ⟨l, hl⟩ := hbody
    rw [List.foldl_append] at hl
    rw [hfile2, hload, hl]
    exact loadRow_record_getters _ r
  · rw [isNew_true_iff]
    intro hmem
    have hfile3 : (Remove (SaveMultiple s file [r] .success).2.1
        (SaveMultiple s file [r] .success).2.2 r.ComplaintID .success).2.2 =
        rowsOfStorage (removeFromMaps (SaveMultiple s file [r] .success).2.1
          r.ComplaintID) := rfl
    rw [hfile3] at hmem
    obtain ⟨records, hrec⟩ : ∃ records, readAllCSV (rowsOfStorage
        (removeFromMaps (SaveMultiple s file [r] .success).2.1 r.ComplaintID)) =
        some records := by
      refine ⟨_, readAllCSV_uniform _ ?_⟩
      intro row hrow
      obtain ⟨id, _, rfl⟩ := List.mem_map.mp hrow
      rfl
    rw [loadFromFile_of_readAll _ _ hrec] at hmem
    obtain rfl := readAllCSV_eq_input _ _ hrec
    obtain ⟨row, hrow, hhead⟩ := loadParsedRows_seen_sub _ _ hmem
    obtain ⟨id, hid, hhead2⟩ := rowsOfStorage_head _ _ hrow
    have hideq : id = r.ComplaintID := by
      have hs : some id = some r.ComplaintID := hhead2.symm.trans hhead
      injection hs
    rw [hideq] at hid
    exact absurd hid (by
      rw [show (removeFromMaps (SaveMultiple s file [r] .success).2.1 r.ComplaintID).seen =
        setDel (SaveMultiple s file [r] .success).2.1.seen r.ComplaintID from rfl]
      rw [mem_setDel]
      rintro ⟨_, hne⟩
      exact hne rfl)

/-- C4, witness: a concrete record round-trips through save and reload, and
disappears after save-remove-reload. -/
theorem saveBatch_reload_roundtrip_witness :
    (loadFromFile (SaveMultiple emptyStorage [] [⟨"123", "7", "9", "N"⟩] .success).2.2).IsNew
      "123" = false ∧
    (loadFromFile (SaveMultiple emptyStorage [] [⟨"123", "7", "9", "N"⟩] .success).2.2).GetMessageID
      "123" = "7" ∧
    (loadFromFile (Remove (SaveMultiple emptyStorage [] [⟨"123", "7", "9", "N"⟩] .success).2.1
        (SaveMultiple emptyStorage [] [⟨"123", "7", "9", "N"⟩] .success).2.2 "123" .success).2.2).IsNew
      "123" = true := by
  have h := saveBatch_reload_roundtrip emptyStorage [] ⟨"123", "7", "9", "N"⟩
    (by intro row hrow; cases hrow) (Or.inr ⟨by decide, by decide⟩)
  exact ⟨h.1.1, h.1.2.1, h.2⟩

end Cmon

/-! Lemmas about the resolved-elsewhere sweep, then the sweep claim. -/

namespace Cmon

theorem frameEq_refl (s : Storage) (id : String) : frameEq s s id :=
  ⟨rfl, rfl, rfl, rfl⟩

theorem frameEq_trans {s1 s2 s3 : Storage} {id : String}
    (h1 : frameEq s1 s2 id) (h2 : frameEq s2 s3 id) : frameEq s1 s3 id :=
  ⟨h2.1.trans h1.1, h2.2.1.trans h1.2.1, h2.2.2.1.trans h1.2.2.1,
    h2.2.2.2.trans h1.2.2.2⟩

theorem removeFromMaps_frame (s : Storage) (k id : String) (h : id ≠ k) :
    frameEq s (removeFromMaps s k) id := by
  refine ⟨?_, ?_, ?_, ?_⟩
  · simp [Storage.Exists, setHas, removeFromMaps, mem_setDel, h]
  · simp [Storage.GetMessageID, removeFromMaps, mapGet_mapDel, h]
  · simp [Storage.GetAPIID, removeFromMaps, mapGet_mapDel, h]
  · simp [Storage.GetConsumerName, removeFromMaps, mapGet_mapDel, h]

/-- Step equation of the sweep loop, with the removal state spelled out. -/
theorem markGo_cons (tg : Bool) (editOk : String → Bool)
    (rw : String → RewriteOutcome) (now : String) (activeIDs : List String)
    (id : String) (rest : List String) (st : Storage × List Row)
    (eff : List TgEffect) :
    markGo tg editOk rw now activeIDs (id :: rest) st eff =
      if id ∈ activeIDs then markGo tg editOk rw now activeIDs rest st eff
      else if st.1.GetMessageID id ≠ "" ∧ tg = true then
        (if editOk id = true then
          markGo tg editOk rw now activeIDs rest
            (removeFromMaps st.1 id,
             (rewriteFile (removeFromMaps st.1 id) st.2 (rw id)).2)
            (eff ++ [TgEffect.editMessage (st.1.GetMessageID id)
              (resolvedMessage id
                (if st.1.GetConsumerName id = "" then "Unknown"
                 else st.1.GetConsumerName id) now)])
        else
          markGo tg editOk rw now activeIDs rest st
            (eff ++ [TgEffect.editMessage (st.1.GetMessageID id)
              (resolvedMessage id
                (if st.1.GetConsumerName id = "" then "Unknown"
                 else st.1.GetConsumerName id) now)]))
      else markGo tg editOk rw now activeIDs rest st eff := rfl

theorem markGo_frame (tg : Bool) (editOk : String → Bool)
    (rw : String → RewriteOutcome) (now : String) (activeIDs : List String)
    (l : List String) (id : String) :
    ∀ (st : Storage × List Row) (eff : List TgEffect),
      (id ∈ activeIDs ∨ st.1.GetMessageID id = "" ∨ tg = false ∨
        editOk id = false) →
      frameEq st.1 (markGo tg editOk rw now activeIDs l st eff).1 id := by
  induction l with
  | nil => exact fun st eff _ => frameEq_refl _ _
  | cons id2 rest ih =>
    intro st eff h
    rw [markGo_cons]
    by_cases h1 : id2 ∈ activeIDs
    · rw [if_pos h1]
      exact ih st eff h
    · rw [if_neg h1]
      by_cases h2 : st.1.GetMessageID id2 ≠ "" ∧ tg = true
      · rw [if_pos h2]
        by_cases h3 : editOk id2 = true
        · rw [if_pos h3]
          have hne : id ≠ id2 := by
            rintro rfl
            rcases h with h | h | h | h
            · exact h1 h
            · exact h2.1 h
            · rw [h] at h2
              exact Bool.false_ne_true h2.2
            · rw [h3] at h
              exact absurd h (by decide)
          have hfr := removeFromMaps_frame st.1 id2 id hne
          refine frameEq_trans hfr (ih _ _ ?_)
          rcases h with h | h | h | h
          · exact Or.inl h
          · exact Or.inr (Or.inl (hfr.2.1.trans h))
          · exact Or.inr (Or.inr (Or.inl h))
          · exact Or.inr (Or.inr (Or.inr h))
        · rw [if_neg h3]
          exact ih st _ h
      · rw [if_neg h2]
        exact ih st eff h

theorem markGo_removed_only_if (tg : Bool) (editOk : String → Bool)
    (rw : String → RewriteOutcome) (now : String) (activeIDs : List String)
    (l : List String) (id : String) :
    ∀ (st : Storage × List Row) (eff : List TgEffect),
      (markGo tg editOk rw now activeIDs l st eff).1.Exists id = false →
      st.1.Exists id = false ∨
        (id ∉ activeIDs ∧ st.1.GetMessageID id ≠ "" ∧ tg = true ∧
          editOk id = true) := by
  induction l with
  | nil => exact fun st eff h => Or.inl h
  | cons id2 rest ih =>
    intro st eff h
    rw [markGo_cons] at h
    by_cases h1 : id2 ∈ activeIDs
    · rw [if_pos h1] at h
      exact ih st eff h
    · rw [if_neg h1] at h
      by_cases h2 : st.1.GetMessageID id2 ≠ "" ∧ tg = true
      · rw [if_pos h2] at h
        by_cases h3 : editOk id2 = true
        · rw [if_pos h3] at h
          by_cases hid : id = id2
          · subst hid
            exact Or.inr ⟨h1, h2.1, h2.2, h3⟩
          · have hfr := removeFromMaps_frame st.1 id2 id hid
            rcases ih _ _ h with hex | ⟨hn1, hn2, hn3, hn4⟩
            · exact Or.inl (hfr.1.symm.trans hex)
            · exact Or.inr ⟨hn1, fun hz => hn2 (hfr.2.1.trans hz), hn3, hn4⟩
        · rw [if_neg h3] at h
          exact ih st _ h
      · rw [if_neg h2] at h
        exact ih st eff h

/-- C9: in the resolved-elsewhere sweep, a Ledger entry is removed only when
its display id is absent from the observed active set, its cached chat
message id is non-empty, the chat client is configured, AND the edit of the
original chat message to the RESOLVED template succeeds; an entry whose
message id is empty, or for which the client is unconfigured or the edit
fails, keeps all its observable fields unchanged (to be retried later); and
entries present in the observed set are never touched. -/
theorem markResolvedComplaints_spec (tg : Bool) (editOk : String → Bool)
    (rw : String → RewriteOutcome) (now : String) (s : Storage)
    (file : List Row) (activeIDs : List String) (id : String) :
    (id ∈ activeIDs →
      frameEq s (markResolvedComplaints tg editOk rw now s file activeIDs).1 id) ∧
    ((s.GetMessageID id = "" ∨ tg = false ∨ editOk id = false) →
      frameEq s (markResolvedComplaints tg editOk rw now s file activeIDs).1 id) ∧
    ((markResolvedComplaints tg editOk rw now s file activeIDs).1.Exists id = false →
      s.Exists id = false ∨
        (id ∉ activeIDs ∧ s.GetMessageID id ≠ "" ∧ tg = true ∧
          editOk id = true)) := by
  refine ⟨fun h => ?_, fun h => ?_, fun h => ?_⟩
  · exact markGo_frame tg editOk rw now activeIDs s.GetAllSeenComplaints id
      (s, file) [] (Or.inl h)
  · exact markGo_frame tg editOk rw now activeIDs s.GetAllSeenComplaints id
      (s, file) [] (Or.inr h)
  · exact markGo_removed_only_if tg editOk rw now activeIDs
      s.GetAllSeenComplaints id (s, file) [] h

/-- C9, witness: with `C1` observed and `C2` resolved elsewhere, the sweep
never touches `C1`. -/
theorem markResolvedComplaints_spec_witness :
    frameEq (indexRecords emptyStorage
        [⟨"C1", "m1", "p1", "n1"⟩, ⟨"C2", "m2", "p2", "n2"⟩])
      (markResolvedComplaints true (fun _ => true) (fun _ => .success) "T"
        (indexRecords emptyStorage
          [⟨"C1", "m1", "p1", "n1"⟩, ⟨"C2", "m2", "p2", "n2"⟩])
        (rowsOfStorage (indexRecords emptyStorage
          [⟨"C1", "m1", "p1", "n1"⟩, ⟨"C2", "m2", "p2", "n2"⟩]))
        ["C1"]).1 "C1" := by
  exact (markResolvedComplaints_spec true (fun _ => true) (fun _ => .success) "T"
    (indexRecords emptyStorage [⟨"C1", "m1", "p1", "n1"⟩, ⟨"C2", "m2", "p2", "n2"⟩])
    (rowsOfStorage (indexRecords emptyStorage
      [⟨"C1", "m1", "p1", "n1"⟩, ⟨"C2", "m2", "p2", "n2"⟩]))
    ["C1"] "C1").1 (by decide)

end Cmon

/-! Lemmas about the scrape filter and worker pool, then the re-scrape
claim. -/

namespace Cmon

/-- Step equation of the dedup-and-filter loop. -/
theorem scrapeFilter_cons (s : Storage) (c : Link) (rest : List Link)
    (sp : List String) :
    scrapeFilter s (c :: rest) sp =
      if c.ComplaintNumber ∈ sp then
        (c.ComplaintNumber :: (scrapeFilter s rest sp).1,
         (scrapeFilter s rest sp).2)
      else if s.IsNew c.ComplaintNumber = true then
        (c.ComplaintNumber :: (scrapeFilter s rest (c.ComplaintNumber :: sp)).1,
         c :: (scrapeFilter s rest (c.ComplaintNumber :: sp)).2)
      else
        (c.ComplaintNumber :: (scrapeFilter s rest (c.ComplaintNumber :: sp)).1,
         (scrapeFilter s rest (c.ComplaintNumber :: sp)).2) := rfl

theorem scrapeFilter_news_isNew (s : Storage) :
    ∀ (links : List Link) (sp : List String),
      ∀ c ∈ (scrapeFilter s links sp).2,
        s.IsNew c.ComplaintNumber = true ∧ c ∈ links := by
  intro links
  induction links with
  | nil => intro sp c hc; cases hc
  | cons l rest ih =>
    intro sp c hc
    rw [scrapeFilter_cons] at hc
    by_cases h1 : l.ComplaintNumber ∈ sp
    · rw [if_pos h1] at hc
      obtain ⟨hn, hm⟩ := ih sp c hc
      exact ⟨hn, List.mem_cons_of_mem _ hm⟩
    · rw [if_neg h1] at hc
      by_cases h2 : s.IsNew l.ComplaintNumber = true
      · rw [if_pos h2] at hc
        rcases List.mem_cons.mp hc with rfl | hcm
        · exact ⟨h2, List.mem_cons_self _ _⟩
        · obtain ⟨hn, hm⟩ := ih _ c hcm
          exact ⟨hn, List.mem_cons_of_mem _ hm⟩
      · rw [if_neg h2] at hc
        obtain ⟨hn, hm⟩ := ih _ c hc
        exact ⟨hn, List.mem_cons_of_mem _ hm⟩

theorem scrapeFilter_cover (s : Storage) :
    ∀ (links : List Link) (sp : List String) (id : String),
      id ∈ links.map Link.ComplaintNumber → s.IsNew id = true → id ∉ sp →
      ∃ c ∈ (scrapeFilter s links sp).2, c.ComplaintNumber = id := by
  intro links
  induction links with
  | nil =>
    intro sp id hm
    simp at hm
  | cons l rest ih =>
    intro sp id hm hnew hsp
    rw [scrapeFilter_cons]
    have hm2 : id = l.ComplaintNumber ∨ id ∈ rest.map Link.ComplaintNumber := by
      rw [List.map_cons] at hm
      exact List.mem_cons.mp hm
    by_cases h1 : l.ComplaintNumber ∈ sp
    · rw [if_pos h1]
      have hid : id ∈ rest.map Link.ComplaintNumber := by
        rcases hm2 with rfl | hid
        · exact absurd h1 hsp
        · exact hid
      obtain ⟨c, hc, hcn⟩ := ih sp id hid hnew hsp
      exact ⟨c, hc, hcn⟩
    · rw [if_neg h1]
      by_cases h2 : s.IsNew l.ComplaintNumber = true
      · rw [if_pos h2]
        by_cases heq : id = l.ComplaintNumber
        · exact ⟨l, List.mem_cons_self _ _, heq.symm⟩
        · have hid : id ∈ rest.map Link.ComplaintNumber := by
            rcases hm2 with hq | hid
            · exact absurd hq heq
            · exact hid
          have hsp2 : id ∉ l.ComplaintNumber :: sp := by
            intro hx
            rcases List.mem_cons.mp hx with hx | hx
            · exact heq hx
            · exact hsp hx
          obtain ⟨c, hc, hcn⟩ := ih _ id hid hnew hsp2
          exact ⟨c, List.mem_cons_of_mem _ hc, hcn⟩
      · rw [if_neg h2]
        have heq : id ≠ l.ComplaintNumber := by
          intro hx
          rw [hx] at hnew
          exact h2 hnew
        have hid : id ∈ rest.map Link.ComplaintNumber := by
          rcases hm2 with hq | hid
          · exact absurd hq heq
          · exact hid
        have hsp2 : id ∉ l.ComplaintNumber :: sp := by
          intro hx
          rcases List.mem_cons.mp hx with hx | hx
          · exact heq hx
          · exact hsp hx
        exact ih _ id hid hnew hsp2

theorem scrapeFilter_none_new (s : Storage) :
    ∀ (links : List Link) (sp : List String),
      (∀ c ∈ links, s.IsNew c.ComplaintNumber = false) →
      (scrapeFilter s links sp).2 = [] := by
  intro links
  induction links with
  | nil => intro sp _; rfl
  | cons l rest ih =>
    intro sp h
    rw [scrapeFilter_cons]
    by_cases h1 : l.ComplaintNumber ∈ sp
    · rw [if_pos h1]
      exact ih sp (fun c hc => h c (List.mem_cons_of_mem _ hc))
    · rw [if_neg h1]
      have h2 : ¬ s.IsNew l.ComplaintNumber = true := by
        rw [h l (List.mem_cons_self _ _)]
        decide
      rw [if_neg h2]
      exact ih _ (fun c hc => h c (List.mem_cons_of_mem _ hc))

/-- Step equation of the result-collection loop. -/
theorem collectResults_cons (am : SMap) (worker : Link → WorkerOutcome)
    (c : Link) (rest : List Link) :
    collectResults am worker (c :: rest) =
      if (worker c).hasError = true then collectResults am worker rest
      else if (worker c).MessageID ≠ "" then
        (⟨c.ComplaintNumber, (worker c).MessageID, mapGet am c.ComplaintNumber,
          (worker c).ConsumerName⟩ : Record) :: collectResults am worker rest
      else collectResults am worker rest := rfl

theorem collectResults_ids (am : SMap) (worker : Link → WorkerOutcome)
    (hok : ∀ c, (worker c).hasError = false ∧ (worker c).MessageID ≠ "") :
    ∀ cs : List Link,
      (collectResults am worker cs).map Record.ComplaintID =
        cs.map Link.ComplaintNumber := by
  intro cs
  induction cs with
  | nil => rfl
  | cons c rest ih =>
    rw [collectResults_cons, if_neg (by rw [(hok c).1]; decide),
      if_pos (hok c).2, List.map_cons, List.map_cons, ih]

/-- Branch equation of `scrapePage`. -/
theorem scrapePage_eq (s : Storage) (file : List Row)
    (worker : Link → WorkerOutcome) (o : SaveOutcome) (links : List Link) :
    scrapePage s file worker o links =
      if (scrapeFilter s links []).2.isEmpty = true then
        (s, file, (scrapeFilter s links []).1, (scrapeFilter s links []).2)
      else
        ((processComplaintsConcurrently s file worker o (scrapeFilter s links []).2).1,
         (processComplaintsConcurrently s file worker o (scrapeFilter s links []).2).2,
         (scrapeFilter s links []).1, (scrapeFilter s links []).2) := rfl

/-- Branch equation of `processComplaintsConcurrently`. -/
theorem processCC_eq (s : Storage) (file : List Row)
    (worker : Link → WorkerOutcome) (o : SaveOutcome) (complaints : List Link) :
    processComplaintsConcurrently s file worker o complaints =
      if (collectResults (buildApiIDMap complaints) worker complaints).isEmpty = true then
        (s, file)
      else
        ((SaveMultiple s file
            (collectResults (buildApiIDMap complaints) worker complaints) o).2.1,
         (SaveMultiple s file
            (collectResults (buildApiIDMap complaints) worker complaints) o).2.2) := rfl

/-- C2: a complaint reference is submitted to the detail-fetch worker pool
(and hence notified) only if `Ledger.isNew` holds for it at filter time; and
after a scrape in which every submitted job succeeded with a non-empty
message id, re-running the scrape over the same page links submits zero jobs
(hence sends zero notifications) and leaves the Ledger — storage and file —
unchanged. -/
theorem scrape_gate_and_idempotent (s : Storage) (file : List Row)
    (worker : Link → WorkerOutcome) (links : List Link)
    (hok : ∀ c, (worker c).hasError = false ∧ (worker c).MessageID ≠ "") :
    (∀ c ∈ (scrapePage s file worker .success links).2.2.2,
      s.IsNew c.ComplaintNumber = true) ∧
    (∃ ids2,
      scrapePage (scrapePage s file worker .success links).1
        (scrapePage s file worker .success links).2.1 worker .success links =
      ((scrapePage s file worker .success links).1,
       (scrapePage s file worker .success links).2.1, ids2, [])) := by
  have h4th : (scrapePage s file worker SaveOutcome.success links).2.2.2 =
      (scrapeFilter s links []).2 := by
    rw [scrapePage_eq]
    by_cases he : (scrapeFilter s links []).2.isEmpty = true
    · rw [if_pos he]
    · rw [if_neg he]
  constructor
  · intro c hc
    rw [h4th] at hc
    exact (scrapeFilter_news_isNew s links [] c hc).1
  · by_cases hp : (scrapeFilter s links []).2.isEmpty = true
    · have hp2 : (scrapeFilter s links []).2 = [] := List.isEmpty_iff.mp hp
      have hs1 : scrapePage s file worker .success links =
          (s, file, (scrapeFilter s links []).1, (scrapeFilter s links []).2) := by
        rw [scrapePage_eq, if_pos hp]
      refine ⟨(scrapeFilter s links []).1, ?_⟩
      rw [hs1]
      show scrapePage s file worker .success links =
        (s, file, (scrapeFilter s links []).1, [])
      rw [hs1, hp2]
    · have hp2ne : (scrapeFilter s links []).2 ≠ [] := by
        intro hx
        rw [hx] at hp
        exact hp rfl
      have hmap := collectResults_ids (buildApiIDMap (scrapeFilter s links []).2)
        worker hok (scrapeFilter s links []).2
      have hrsne : ¬ (collectResults (buildApiIDMap (scrapeFilter s links []).2)
          worker (scrapeFilter s links []).2).isEmpty = true := by
        intro hx
        have hnil := List.isEmpty_iff.mp hx
        rw [hnil] at hmap
        exact hp2ne (List.map_eq_nil_iff.mp hmap.symm)
      have hs1 : scrapePage s file worker .success links =
          ((SaveMultiple s file (collectResults (buildApiIDMap (scrapeFilter s links []).2)
              worker (scrapeFilter s links []).2) .success).2.1,
           (SaveMultiple s file (collectResults (buildApiIDMap (scrapeFilter s links []).2)
              worker (scrapeFilter s links []).2) .success).2.2,
           (scrapeFilter s links []).1, (scrapeFilter s links []).2) := by
        rw [scrapePage_eq, if_neg hp, processCC_eq, if_neg hrsne]
      have hall : ∀ c ∈ links,
          (indexRecords s (collectResults (buildApiIDMap (scrapeFilter s links []).2)
            worker (scrapeFilter s links []).2)).IsNew c.ComplaintNumber = false := by
        intro c hc
        rw [isNew_false_iff, indexRecords_seen_mem]
        by_cases hnew : s.IsNew c.ComplaintNumber = true
        · right
          obtain ⟨c2, hc2, hcn⟩ := scrapeFilter_cover s links [] c.ComplaintNumber
            (List.mem_map_of_mem Link.ComplaintNumber hc) hnew (by simp)
          have hmem : c.ComplaintNumber ∈ (collectResults
              (buildApiIDMap (scrapeFilter s links []).2) worker
              (scrapeFilter s links []).2).map Record.ComplaintID := by
            rw [hmap]
            exact hcn ▸ List.mem_map_of_mem Link.ComplaintNumber hc2
          obtain ⟨r, hr, hrid⟩ := List.mem_map.mp hmem
          exact ⟨r, hr, hrid⟩
        · left
          rw [Bool.not_eq_true] at hnew
          exact (isNew_false_iff s c.ComplaintNumber).mp hnew
      have hnews2 := scrapeFilter_none_new _ links [] hall
      refine ⟨(scrapeFilter (indexRecords s (collectResults
          (buildApiIDMap (scrapeFilter s links []).2) worker
          (scrapeFilter s links []).2)) links []).1, ?_⟩
      rw [hs1]
      show scrapePage (indexRecords s _) _ worker .success links = _
      rw [scrapePage_eq, hnews2,
        if_pos (show ([] : List Link).isEmpty = true from rfl)]
      rfl
/-- C2, witness: on a single-link page over an empty ledger the link is
submitted (it is new), and the immediate re-scrape submits nothing and
changes nothing. -/
theorem scrape_gate_and_idempotent_witness :
    emptyStorage.IsNew "C1" = true ∧
    (∃ ids2,
      scrapePage (scrapePage emptyStorage [] (fun _ => ⟨"9", "N", false⟩)
          .success [⟨"C1", "p1"⟩]).1
        (scrapePage emptyStorage [] (fun _ => ⟨"9", "N", false⟩)
          .success [⟨"C1", "p1"⟩]).2.1
        (fun _ => ⟨"9", "N", false⟩) .success [⟨"C1", "p1"⟩] =
      ((scrapePage emptyStorage [] (fun _ => ⟨"9", "N", false⟩)
          .success [⟨"C1", "p1"⟩]).1,
       (scrapePage emptyStorage [] (fun _ => ⟨"9", "N", false⟩)
          .success [⟨"C1", "p1"⟩]).2.1, ids2, [])) := by
  have h := scrape_gate_and_idempotent emptyStorage []
    (fun _ => ⟨"9", "N", false⟩) [⟨"C1", "p1"⟩]
    (fun _ => ⟨rfl, show ("9" : String) ≠ "" by decide⟩)
  exact ⟨h.1 ⟨"C1", "p1"⟩ (by decide), h.2⟩

end Cmon
